import Mathlib

/-!
Shallow embedding of the record-management core of the `tie` repository
(`db.py`, with the admin-tab call sites of `app.py`).

The SQLite store is modelled as an explicit state `DB`: a list of
`scheduled_activities` rows, the autoincrement counter for their ids, the
`audit_log` rows and their autoincrement counter.  Calendar dates
(ISO `yyyy-mm-dd` strings compared with SQLite `date(...)`) are modelled as
year/month/day triples with lexicographic order, which agrees with the
SQL comparison on well-formed ISO dates.  Wall-clock timestamps produced by
`_now_iso()` are passed in as an explicit `now : String` parameter.
Each Python function of `db.py` becomes a pure function on `DB`; the
`with conn:` transaction blocks (commit on success, rollback on exception)
become `Except` results that either return the new state or the error with
the original state untouched.
-/

/-- Calendar date, the model of an ISO `yyyy-mm-dd` string. -/
structure Date where
  year : Nat
  month : Nat
  day : Nat
deriving DecidableEq, Repr

/-- Lexicographic comparison of dates; this is what SQLite's
`date(a) <= date(b)` computes on well-formed ISO date strings. -/
def dateLeB (a b : Date) : Bool :=
  decide (a.year < b.year ∨ (a.year = b.year ∧
    (a.month < b.month ∨ (a.month = b.month ∧ a.day ≤ b.day))))

/-- String comparison via the order SQLite uses for `ORDER BY` on text
(byte-lexicographic; modelled with Lean's `Ord String`). -/
def strLeB (a b : String) : Bool :=
  (compare a b).isLE

/-- One row of the `scheduled_activities` table (schema in `init_db`,
`db.py` lines 27-39). -/
structure Row where
  id : Nat
  specialist : String
  activity : String
  unit : String
  scheduled_date : Date
  status : String
  notes : String
  created_at : String
  created_by : String
  updated_at : Option String
  updated_by : Option String
deriving DecidableEq, Repr

/-- One row of the `audit_log` table (schema in `init_db`,
`db.py` lines 42-51). -/
structure AuditEntry where
  id : Nat
  action : String
  record_id : Nat
  old_scheduled_date : Option Date
  new_scheduled_date : Option Date
  actor : String
  reason : String
  ts : String
deriving DecidableEq, Repr

/-- The whole persistent state: both tables and their autoincrement
counters. -/
structure DB where
  rows : List Row
  nextId : Nat
  audit : List AuditEntry
  nextAuditId : Nat
deriving DecidableEq, Repr

/-- Insertion into a list sorted by the boolean comparator `le`. -/
def insertSorted (le : α → α → Bool) (x : α) : List α → List α
  | [] => [x]
  | y :: ys => if le x y then x :: y :: ys else y :: insertSorted le x ys

/-- Insertion sort by the boolean comparator `le`; models SQL `ORDER BY`. -/
def insertionSort (le : α → α → Bool) : List α → List α
  | [] => []
  | x :: xs => insertSorted le x (insertionSort le xs)

/-- Row order of `get_month_records`:
`ORDER BY date(scheduled_date) ASC, specialist ASC, activity ASC`. -/
def rowLeB (a b : Row) : Bool :=
  if a.scheduled_date ≠ b.scheduled_date then dateLeB a.scheduled_date b.scheduled_date
  else if a.specialist ≠ b.specialist then strLeB a.specialist b.specialist
  else strLeB a.activity b.activity

/-- Date-range condition of the query
(`date(scheduled_date) >= date(?) AND date(scheduled_date) <= date(?)`). -/
def inRange (date_from date_to : Date) (r : Row) : Bool :=
  dateLeB date_from r.scheduled_date && dateLeB r.scheduled_date date_to

/-- Specialist filter of `get_month_records`: the Python code appends
`AND specialist = ?` only under `if specialist:`, which is falsy both for
`None` and for the empty string. -/
def matchesSpecialist (specialist : Option String) (r : Row) : Bool :=
  match specialist with
  | none => true
  | some s => if s = "" then true else r.specialist == s

/-- Model of `get_month_records` (`db.py` lines 76-93): filter the rows by
inclusive date range and optional specialist, then sort. -/
def get_month_records (date_from date_to : Date) (specialist : Option String)
    (db : DB) : List Row :=
  insertionSort rowLeB
    (db.rows.filter (fun r => inRange date_from date_to r && matchesSpecialist specialist r))

/-- Python `s or default` on strings: the empty string is falsy. -/
def pyOrStr (s d : String) : String :=
  if s = "" then d else s

/-- Model of `d.get(key, default) or default` for an optional text field. -/
def optField (o : Option String) (d : String) : String :=
  pyOrStr (o.getD d) d

/-- Row update performed by `admin_update_scheduled_date`
(`UPDATE scheduled_activities SET scheduled_date = ?, updated_at = ?,
updated_by = ? WHERE id = ?`). -/
def updDate (record_id : Nat) (new_date : Date) (actor now : String) (r : Row) : Row :=
  if r.id == record_id then
    { r with scheduled_date := new_date, updated_at := some now, updated_by := some actor }
  else r

/-- Model of `admin_update_scheduled_date` (`db.py` lines 113-126): look the
row up; if absent return `false` with the state unchanged; otherwise update
its date and append one `UPDATE_DATE` audit entry, all in one transaction. -/
def admin_update_scheduled_date (record_id : Nat) (new_date : Date)
    (actor reason now : String) (db : DB) : Bool × DB :=
  match db.rows.find? (fun r => r.id == record_id) with
  | none => (false, db)
  | some row =>
    (true,
      { db with
        rows := db.rows.map (updDate record_id new_date actor now),
        audit := db.audit ++
          [⟨db.nextAuditId, "UPDATE_DATE", record_id, some row.scheduled_date,
            some new_date, actor, reason, now⟩],
        nextAuditId := db.nextAuditId + 1 })

/-- Model of `admin_delete_record` (`db.py` lines 128-140): look the row up;
if absent return `false` with the state unchanged; otherwise delete it and
append one `DELETE` audit entry (new date `NULL`), in one transaction. -/
def admin_delete_record (record_id : Nat) (actor reason now : String)
    (db : DB) : Bool × DB :=
  match db.rows.find? (fun r => r.id == record_id) with
  | none => (false, db)
  | some row =>
    (true,
      { db with
        rows := db.rows.filter (fun r => !(r.id == record_id)),
        audit := db.audit ++
          [⟨db.nextAuditId, "DELETE", record_id, some row.scheduled_date,
            none, actor, reason, now⟩],
        nextAuditId := db.nextAuditId + 1 })

/-- Input record of `add_scheduled_records`: a Python dict.  The three
text fields whose absence or `None` value makes the `INSERT` raise
(`KeyError` on a missing key, `IntegrityError` on a `NOT NULL` column) are
modelled as `Option String`, `none` standing for missing/`NULL`. -/
structure NewRecord where
  specialist : Option String
  activity : Option String
  unit : Option String
  scheduled_date : Date
  status : Option String
  notes : Option String
  created_by : Option String
deriving DecidableEq, Repr

/-- Storage-level failure raised inside a transaction (the transaction is
rolled back in full). -/
inductive StorageError
  | notNullViolation
deriving DecidableEq, Repr

/-- Row built by one `INSERT` of `add_scheduled_records` (`db.py` lines
60-73): fresh id, `created_at` = now, `status`/`notes` defaulting to the
empty string, `created_by` defaulting to an em-dash. -/
def rowOfRecord (nid : Nat) (now : String) (r : NewRecord) : Row :=
  ⟨nid, r.specialist.getD "", r.activity.getD "", r.unit.getD "",
   r.scheduled_date, optField r.status "", optField r.notes "",
   now, optField r.created_by "—", none, none⟩

/-- One `INSERT` of the batch loop: fails when a `NOT NULL` text column is
missing/`NULL`, otherwise appends the new row and advances the id counter. -/
def insertOne (now : String) (db : DB) (r : NewRecord) : Except StorageError DB :=
  if r.specialist = none ∨ r.activity = none ∨ r.unit = none then
    Except.error StorageError.notNullViolation
  else
    Except.ok { db with rows := db.rows ++ [rowOfRecord db.nextId now r],
                        nextId := db.nextId + 1 }

/-- The insert loop of `add_scheduled_records`; an error anywhere discards
all earlier inserts of the batch (the `with conn:` block rolls back). -/
def insertAll (now : String) : DB → List NewRecord → Except StorageError DB
  | db, [] => Except.ok db
  | db, r :: rs =>
    match insertOne now db r with
    | Except.error e => Except.error e
    | Except.ok db1 => insertAll now db1 rs

/-- Model of `add_scheduled_records` (`db.py` lines 55-74): no-op on the
empty batch, otherwise all inserts in one transaction. -/
def add_scheduled_records (records : List NewRecord) (now : String)
    (db : DB) : Except StorageError DB :=
  if records.isEmpty then Except.ok db else insertAll now db records

/-- The rows a successful batch appends: one per input record, with
consecutive fresh ids starting at `nid`. -/
def batchRows (nid : Nat) (now : String) : List NewRecord → List Row
  | [] => []
  | r :: rs => rowOfRecord nid now r :: batchRows (nid + 1) now rs

/-- One change given to `update_records_status_and_notes`. -/
structure StatusChange where
  id : Nat
  status : Option String
  notes : Option String
  actor : Option String
deriving DecidableEq, Repr

/-- Row update of one `UPDATE scheduled_activities SET status = ?,
notes = ?, updated_at = ?, updated_by = ? WHERE id = ?` statement. -/
def applyChange (now : String) (r : Row) (ch : StatusChange) : Row :=
  if r.id == ch.id then
    { r with status := optField ch.status "", notes := optField ch.notes "",
             updated_at := some now, updated_by := some (optField ch.actor "—") }
  else r

/-- Effect of the whole change list on a single row (the statements run in
list order inside one transaction). -/
def applyAll (changes : List StatusChange) (now : String) (r : Row) : Row :=
  changes.foldl (applyChange now) r

/-- Model of `update_records_status_and_notes` (`db.py` lines 95-111). -/
def update_records_status_and_notes (changes : List StatusChange) (now : String)
    (db : DB) : DB :=
  { db with rows := changes.foldl (fun rows ch => rows.map (fun r => applyChange now r ch)) db.rows }

/-- Admin-tab reschedule call site (`app.py` lines 280-286): the UI passes
`actor_name.strip() or "ADMIN"` and `motivo.strip() or "—"` to
`admin_update_scheduled_date`. -/
def tab_admin_update_date (rid : Nat) (nueva_fecha : Date)
    (actor_name motivo : String) (now : String) (db : DB) : Bool × DB :=
  admin_update_scheduled_date rid nueva_fecha
    (pyOrStr actor_name.trim "ADMIN") (pyOrStr motivo.trim "—") now db

/-- Admin-tab delete call site (`app.py` line 294): same defaulting of
actor and reason before calling `admin_delete_record`. -/
def tab_admin_delete (rid : Nat) (actor_name motivo : String) (now : String)
    (db : DB) : Bool × DB :=
  admin_delete_record rid
    (pyOrStr actor_name.trim "ADMIN") (pyOrStr motivo.trim "—") now db

/-- Group key of the export pivot: `index=["specialist", "activity", "unit"]`. -/
structure GroupKey where
  specialist : String
  activity : String
  unit : String
deriving DecidableEq, Repr

/-- Group key of a row. -/
def rowKey (r : Row) : GroupKey :=
  ⟨r.specialist, r.activity, r.unit⟩

/-- Lexicographic order on group keys; `pivot_table` sorts its index. -/
def keyLeB (a b : GroupKey) : Bool :=
  if a.specialist ≠ b.specialist then strLeB a.specialist b.specialist
  else if a.activity ≠ b.activity then strLeB a.activity b.activity
  else strLeB a.unit b.unit

/-- First-occurrence deduplication (order preserving). -/
def dedupFirst [BEq α] (l : List α) : List α :=
  l.foldl (fun acc x => if acc.contains x then acc else acc ++ [x]) []

/-- Pivot cell for a group and a day-of-month: `aggfunc="first"` takes the
first matching row in dataframe order, `fill_value=""` fills the rest. -/
def pivotValue (df : List Row) (g : GroupKey) (d : Nat) : String :=
  match df.find? (fun r => rowKey r == g && r.scheduled_date.day == d) with
  | some r => r.status
  | none => ""

/-- Column label of the pivoted dataframe after `reset_index()`: either one
of the three index names (Python strings) or a day number (Python int). -/
inductive ColLabel
  | str (s : String)
  | intL (n : Nat)
deriving DecidableEq, Repr

/-- The string `str(label)` of a column label. -/
def labelStr : ColLabel → String
  | ColLabel.str s => s
  | ColLabel.intL n => toString n

/-- Python identifier check used by `collections.namedtuple`'s renaming:
a nonempty string of letters/underscore then letters/digits/underscore.
The decimal rendering of an int always fails it. -/
def pyIdentOk (s : String) : Bool :=
  match s.data with
  | [] => false
  | c :: cs => (c.isAlpha || c == '_') && cs.all (fun x => x.isAlphanum || x == '_')

/-- Field names `DataFrame.itertuples` gives the namedtuple: a column label
that is not a valid identifier is renamed to its positional name `_i`
(`collections.namedtuple(..., rename=True)`).  Day columns are ints and are
always renamed. -/
def tupleFields (labels : List ColLabel) : List String :=
  labels.enum.map (fun p =>
    if pyIdentOk (labelStr p.2) then labelStr p.2 else "_" ++ toString p.1)

/-- Python `getattr(row, name, default)` on the namedtuple, the tuple
modelled as field-name/value pairs. -/
def getattrD (pairs : List (String × String)) (name default : String) : String :=
  match pairs.find? (fun p => p.1 == name) with
  | some p => p.2
  | none => default

/-- Two-digit month for the `%Y-%m` title. -/
def fmt2 (n : Nat) : String :=
  if n < 10 then "0" ++ toString n else toString n

/-- Structural content of the generated worksheet: title cell, the three
fixed header labels, the day-number header cells, and the data rows as the
strings written into the cells (three leading columns then one cell per
day 1..last-day-of-month). -/
structure Grid where
  title : String
  headers : List String
  dayHeaders : List Nat
  dataRows : List (List String)
deriving DecidableEq, Repr

/-- Report artifact of the export: the single placeholder cell when the
query is empty, the grid otherwise. -/
inductive Report
  | noData (msg : String)
  | grid (g : Grid)
deriving DecidableEq, Repr

/-- Model of `export_month_matrix_xlsx_bytes` (`db.py` lines 143-227),
keeping the structure of the worksheet and dropping only visual styling.
The pivoted dataframe has columns `specialist, activity, unit` followed by
the distinct days present (sorted); `itertuples` renames the int day
columns, and each day cell is written as `getattr(row, str(d), "")`. -/
def export_month_matrix_xlsx_bytes (month_first month_last : Date)
    (specialist : Option String) (db : DB) : Report :=
  let df := get_month_records month_first month_last specialist db
  if df.isEmpty then Report.noData "Sin datos para el rango seleccionado"
  else
    let maxDay := month_last.day
    let presentDays := insertionSort Nat.ble (dedupFirst (df.map (fun r => r.scheduled_date.day)))
    let keys := insertionSort keyLeB (dedupFirst (df.map rowKey))
    let labels := [ColLabel.str "specialist", ColLabel.str "activity", ColLabel.str "unit"]
      ++ presentDays.map ColLabel.intL
    let fields := tupleFields labels
    let dataRows := keys.map (fun g =>
      let vals := [g.specialist, g.activity, g.unit]
        ++ presentDays.map (fun d => pivotValue df g d)
      let pairs := fields.zip vals
      [getattrD pairs "specialist" "", getattrD pairs "activity" "",
       getattrD pairs "unit" ""]
        ++ (List.range' 1 maxDay).map (fun d => getattrD pairs (toString d) ""))
    Report.grid
      ⟨"Matriz mensual: " ++ toString month_first.year ++ "-" ++ fmt2 month_first.month,
       ["Especialista", "Actividad", "Unidad de medida"],
       List.range' 1 maxDay, dataRows⟩

/-- Fresh store right after `init_db`: both tables empty, both
autoincrement counters at 1. -/
def emptyDB : DB :=
  ⟨[], 1, [], 1⟩

/-- Sample store with one existing record (id 1, scheduled 2024-03-05),
used to instantiate the theorems below at concrete inputs. -/
def wRow : Row :=
  ⟨1, "Ana", "Informe", "Documento", ⟨2024, 3, 5⟩, "", "", "t0", "Ana", none, none⟩

/-- Sample one-row store. -/
def wDB : DB :=
  ⟨[wRow], 2, [], 1⟩

/-- Sample well-formed batch input. -/
def wRec : NewRecord :=
  ⟨some "Ana", some "Informe", some "Documento", ⟨2024, 3, 1⟩, none, none, none⟩

/-- Scenario batch of the spec: three rows for specialist "Ana" scheduled
on 2024-03-01..03 with empty status. -/
def anaBatch : List NewRecord :=
  [⟨some "Ana", some "Informe", some "Documento", ⟨2024, 3, 1⟩, some "", some "", some "Ana"⟩,
   ⟨some "Ana", some "Informe", some "Documento", ⟨2024, 3, 2⟩, some "", some "", some "Ana"⟩,
   ⟨some "Ana", some "Informe", some "Documento", ⟨2024, 3, 3⟩, some "", some "", some "Ana"⟩]

/-- Store after inserting the scenario batch into a fresh store. -/
def anaDB1 : DB :=
  ⟨[⟨1, "Ana", "Informe", "Documento", ⟨2024, 3, 1⟩, "", "", "t0", "Ana", none, none⟩,
    ⟨2, "Ana", "Informe", "Documento", ⟨2024, 3, 2⟩, "", "", "t0", "Ana", none, none⟩,
    ⟨3, "Ana", "Informe", "Documento", ⟨2024, 3, 3⟩, "", "", "t0", "Ana", none, none⟩],
   4, [], 1⟩

/-- Store after additionally marking id 2 as completed. -/
def anaDB2 : DB :=
  ⟨[⟨1, "Ana", "Informe", "Documento", ⟨2024, 3, 1⟩, "", "", "t0", "Ana", none, none⟩,
    ⟨2, "Ana", "Informe", "Documento", ⟨2024, 3, 2⟩, "✓", "", "t0", "Ana", some "t1", some "Ana"⟩,
    ⟨3, "Ana", "Informe", "Documento", ⟨2024, 3, 3⟩, "", "", "t0", "Ana", none, none⟩],
   4, [], 1⟩

theorem mem_insertSorted {le : α → α → Bool} {x a : α} :
    ∀ {l : List α}, a ∈ insertSorted le x l ↔ a = x ∨ a ∈ l := by
  intro l
  induction l with
  | nil => simp [insertSorted]
  | cons y ys ih =>
      simp only [insertSorted]
      split
      · simp
      · simp only [List.mem_cons, ih]
        tauto

theorem mem_insertionSort {le : α → α → Bool} {a : α} :
    ∀ {l : List α}, a ∈ insertionSort le l ↔ a ∈ l := by
  intro l
  induction l with
  | nil => simp [insertionSort]
  | cons x xs ih =>
      simp [insertionSort, mem_insertSorted, ih]

/-- Exactly one audit entry, with the given action and target, was appended
between the two states. -/
def auditAppendedOnce (db db1 : DB) (rid : Nat) (act : String) : Prop :=
  ∃ e, db1.audit = db.audit ++ [e] ∧ e.record_id = rid ∧ e.action = act

/-- C1: a successful `adminRescheduleDate` or `adminDelete` couples the row
mutation with exactly one matching audit entry in the one resulting state,
and a failed one leaves the state exactly as it was: no mutation without
audit and no audit without mutation. -/
theorem adminMutationAuditAtomic (db : DB) (rid : Nat) (d : Date)
    (actor reason now : String) :
    (((admin_update_scheduled_date rid d actor reason now db).1 = true ∧
      (∃ r ∈ db.rows, r.id = rid) ∧
      (∀ r ∈ (admin_update_scheduled_date rid d actor reason now db).2.rows,
        r.id = rid → r.scheduled_date = d) ∧
      auditAppendedOnce db (admin_update_scheduled_date rid d actor reason now db).2
        rid "UPDATE_DATE") ∨
     admin_update_scheduled_date rid d actor reason now db = (false, db)) ∧
    (((admin_delete_record rid actor reason now db).1 = true ∧
      (∃ r ∈ db.rows, r.id = rid) ∧
      (∀ r ∈ (admin_delete_record rid actor reason now db).2.rows, r.id ≠ rid) ∧
      auditAppendedOnce db (admin_delete_record rid actor reason now db).2
        rid "DELETE") ∨
     admin_delete_record rid actor reason now db = (false, db)) := by
  cases hfind : db.rows.find? (fun r => r.id == rid) with
  | none =>
      constructor
      · right; simp [admin_update_scheduled_date, hfind]
      · right; simp [admin_delete_record, hfind]
  | some row =>
      have hmem : row ∈ db.rows := List.mem_of_find?_eq_some hfind
      have hid' : row.id = rid := by
        have h2 := List.find?_some hfind
        simpa using h2
      constructor
      · left
        refine ⟨by simp [admin_update_scheduled_date, hfind], ⟨row, hmem, hid'⟩, ?_, ?_⟩
        · intro r hr hrid
          simp only [admin_update_scheduled_date, hfind] at hr
          rcases List.mem_map.mp hr with ⟨x, _, hx⟩
          by_cases hxid : (x.id == rid) = true
          · rw [← hx]; simp [updDate, hxid]
          · exfalso
            rw [← hx] at hrid
            simp [updDate, hxid] at hrid
            exact hxid (by simpa using hrid)
        · exact ⟨⟨db.nextAuditId, "UPDATE_DATE", rid, some row.scheduled_date,
            some d, actor, reason, now⟩, by simp [admin_update_scheduled_date, hfind], rfl, rfl⟩
      · left
        refine ⟨by simp [admin_delete_record, hfind], ⟨row, hmem, hid'⟩, ?_, ?_⟩
        · intro r hr
          simp only [admin_delete_record, hfind] at hr
          have h3 := (List.mem_filter.mp hr).2
          simpa using h3
        · exact ⟨⟨db.nextAuditId, "DELETE", rid, some row.scheduled_date,
            none, actor, reason, now⟩, by simp [admin_delete_record, hfind], rfl, rfl⟩

/-- C2: rescheduling an existing record (found row `row0`, so old date
`row0.scheduled_date`) returns `true`; a subsequent `queryRange` whose range
covers the new date shows the record with the new date (and shows it with no
other date); and exactly one audit entry `{UPDATE_DATE, rid, old, new,
actor, reason}` is appended. -/
theorem adminRescheduleSpec (db : DB) (rid : Nat) (d1 dfrom dto : Date)
    (actor reason now : String) (row0 : Row)
    (hfind : db.rows.find? (fun r => r.id == rid) = some row0)
    (h1 : dateLeB dfrom d1 = true) (h2 : dateLeB d1 dto = true) :
    (admin_update_scheduled_date rid d1 actor reason now db).1 = true ∧
    (∃ r ∈ get_month_records dfrom dto none
        (admin_update_scheduled_date rid d1 actor reason now db).2,
      r.id = rid ∧ r.scheduled_date = d1) ∧
    (∀ r ∈ get_month_records dfrom dto none
        (admin_update_scheduled_date rid d1 actor reason now db).2,
      r.id = rid → r.scheduled_date = d1) ∧
    (admin_update_scheduled_date rid d1 actor reason now db).2.audit =
      db.audit ++ [⟨db.nextAuditId, "UPDATE_DATE", rid, some row0.scheduled_date,
        some d1, actor, reason, now⟩] := by
  have hmem : row0 ∈ db.rows := List.mem_of_find?_eq_some hfind
  have hid0 : (row0.id == rid) = true := by
    have h3 := List.find?_some hfind
    simpa using h3
  refine ⟨by simp [admin_update_scheduled_date, hfind], ?_, ?_, ?_⟩
  · refine ⟨updDate rid d1 actor now row0, ?_, ?_, ?_⟩
    · simp only [admin_update_scheduled_date, hfind, get_month_records,
        mem_insertionSort, List.mem_filter]
      refine ⟨List.mem_map_of_mem _ hmem, ?_⟩
      simp [updDate, hid0, inRange, matchesSpecialist, h1, h2]
    · simp [updDate, hid0]
      simpa using hid0
    · simp [updDate, hid0]
  · intro r hr hrid
    simp only [admin_update_scheduled_date, get_month_records, hfind,
      mem_insertionSort, List.mem_filter] at hr
    rcases List.mem_map.mp hr.1 with ⟨x, _, hx⟩
    by_cases hxid : (x.id == rid) = true
    · rw [← hx]; simp [updDate, hxid]
    · exfalso
      rw [← hx] at hrid
      simp [updDate, hxid] at hrid
      exact hxid (by simpa using hrid)
  · simp [admin_update_scheduled_date, hfind]

/-- C3: deleting an existing record (found row `row0`) returns `true`,
removes the record from every subsequent `queryRange` result (any range and
any specialist filter), and appends exactly one audit entry
`{DELETE, rid, old date, no new date, actor, reason}`, so the history of the
deleted id survives in the audit log. -/
theorem adminDeleteSpec (db : DB) (rid : Nat) (actor reason now : String)
    (row0 : Row)
    (hfind : db.rows.find? (fun r => r.id == rid) = some row0) :
    (admin_delete_record rid actor reason now db).1 = true ∧
    (∀ dfrom dto spec, ∀ r ∈ get_month_records dfrom dto spec
        (admin_delete_record rid actor reason now db).2, r.id ≠ rid) ∧
    (admin_delete_record rid actor reason now db).2.audit =
      db.audit ++ [⟨db.nextAuditId, "DELETE", rid, some row0.scheduled_date,
        none, actor, reason, now⟩] ∧
    (∃ e ∈ (admin_delete_record rid actor reason now db).2.audit,
      e.record_id = rid ∧ e.old_scheduled_date = some row0.scheduled_date) := by
  refine ⟨by simp [admin_delete_record, hfind], ?_, ?_, ?_⟩
  · intro dfrom dto spec r hr
    simp only [admin_delete_record, hfind, get_month_records,
      mem_insertionSort, List.mem_filter] at hr
    have h3 := hr.1.2
    simpa using h3
  · simp [admin_delete_record, hfind]
  · refine ⟨⟨db.nextAuditId, "DELETE", rid, some row0.scheduled_date,
      none, actor, reason, now⟩, ?_, rfl, rfl⟩
    simp [admin_delete_record, hfind]

/-- C4: against an id that exists in no row, both admin operations return
`false` and leave the whole state, rows and audit log alike, unchanged. -/
theorem adminOpsNonexistentNoop (db : DB) (rid : Nat) (d : Date)
    (actor reason now : String)
    (hno : ∀ r ∈ db.rows, r.id ≠ rid) :
    admin_update_scheduled_date rid d actor reason now db = (false, db) ∧
    admin_delete_record rid actor reason now db = (false, db) := by
  have hfind : db.rows.find? (fun r => r.id == rid) = none := by
    rw [List.find?_eq_none]
    intro r hr
    simpa using hno r hr
  exact ⟨by simp [admin_update_scheduled_date, hfind],
    by simp [admin_delete_record, hfind]⟩

theorem foldl_update_eq_map_applyAll (now : String) :
    ∀ (changes : List StatusChange) (rows : List Row),
      changes.foldl (fun rows ch => rows.map (fun r => applyChange now r ch)) rows
        = rows.map (applyAll changes now) := by
  intro changes
  induction changes with
  | nil =>
      intro rows
      have h0 : applyAll [] now = id := rfl
      rw [List.foldl_nil, h0, List.map_id]
  | cons ch chs ih =>
      intro rows
      simp only [List.foldl_cons]
      rw [ih, List.map_map]
      rfl

theorem applyChange_frame (now : String) (r : Row) (ch : StatusChange) :
    (applyChange now r ch).id = r.id ∧
    (applyChange now r ch).specialist = r.specialist ∧
    (applyChange now r ch).activity = r.activity ∧
    (applyChange now r ch).unit = r.unit ∧
    (applyChange now r ch).scheduled_date = r.scheduled_date ∧
    (applyChange now r ch).created_at = r.created_at ∧
    (applyChange now r ch).created_by = r.created_by := by
  unfold applyChange
  split <;> simp

theorem applyAll_frame (now : String) :
    ∀ (changes : List StatusChange) (r : Row),
      (applyAll changes now r).id = r.id ∧
      (applyAll changes now r).specialist = r.specialist ∧
      (applyAll changes now r).activity = r.activity ∧
      (applyAll changes now r).unit = r.unit ∧
      (applyAll changes now r).scheduled_date = r.scheduled_date ∧
      (applyAll changes now r).created_at = r.created_at ∧
      (applyAll changes now r).created_by = r.created_by := by
  intro changes
  induction changes with
  | nil => intro r; simp [applyAll]
  | cons ch chs ih =>
      intro r
      have h1 := applyChange_frame now r ch
      have h2 := ih (applyChange now r ch)
      simp only [applyAll, List.foldl_cons] at h2 ⊢
      exact ⟨h2.1.trans h1.1, h2.2.1.trans h1.2.1, h2.2.2.1.trans h1.2.2.1,
        h2.2.2.2.1.trans h1.2.2.2.1, h2.2.2.2.2.1.trans h1.2.2.2.2.1,
        h2.2.2.2.2.2.1.trans h1.2.2.2.2.2.1, h2.2.2.2.2.2.2.trans h1.2.2.2.2.2.2⟩

theorem applyAll_untouched (now : String) :
    ∀ (changes : List StatusChange) (r : Row),
      (∀ ch ∈ changes, ch.id ≠ r.id) → applyAll changes now r = r := by
  intro changes
  induction changes with
  | nil => intro r _; simp [applyAll]
  | cons ch chs ih =>
      intro r hno
      have hne : ¬(r.id == ch.id) = true := by
        simp only [beq_iff_eq]
        intro h
        exact hno ch (List.mem_cons_self _ _) h.symm
      simp only [applyAll, List.foldl_cons, applyChange, if_neg hne]
      exact ih r (fun c hc => hno c (List.mem_cons_of_mem _ hc))

theorem applyAll_touched (now : String) :
    ∀ (changes : List StatusChange) (r : Row),
      (∃ ch ∈ changes, ch.id = r.id) →
      (applyAll changes now r).updated_at = some now ∧
      ∃ ch ∈ changes, ch.id = r.id ∧
        (applyAll changes now r).updated_by = some (optField ch.actor "—") ∧
        (applyAll changes now r).status = optField ch.status "" ∧
        (applyAll changes now r).notes = optField ch.notes "" := by
  intro changes
  induction changes with
  | nil => intro r h; simp at h
  | cons ch chs ih =>
      intro r hex
      by_cases hrest : ∃ c ∈ chs, c.id = r.id
      · have hid := (applyChange_frame now r ch).1
        have h2 := ih (applyChange now r ch) (by rwa [hid])
        simp only [applyAll, List.foldl_cons] at h2 ⊢
        refine ⟨h2.1, ?_⟩
        rcases h2.2 with ⟨c, hc, hcid, hub, hst, hnt⟩
        exact ⟨c, List.mem_cons_of_mem _ hc, by rwa [hid] at hcid, hub, hst, hnt⟩
      · have hhead : ch.id = r.id := by
          rcases hex with ⟨c, hc, hcid⟩
          rcases List.mem_cons.mp hc with hc1 | hc2
          · rwa [← hc1]
          · exact absurd ⟨c, hc2, hcid⟩ hrest
        have hbeq : (r.id == ch.id) = true := by simp [hhead]
        have hr1 : applyChange now r ch =
            { r with status := optField ch.status "", notes := optField ch.notes "",
                     updated_at := some now, updated_by := some (optField ch.actor "—") } := by
          simp [applyChange, hbeq]
        have hstop : applyAll chs now (applyChange now r ch) = applyChange now r ch := by
          apply applyAll_untouched
          intro c hc hcid
          exact hrest ⟨c, hc, by rw [hcid, (applyChange_frame now r ch).1]⟩
        simp only [applyAll, List.foldl_cons]
        rw [show chs.foldl (applyChange now) (applyChange now r ch)
              = applyAll chs now (applyChange now r ch) from rfl, hstop, hr1]
        exact ⟨rfl, ch, List.mem_cons_self _ _, hhead, rfl, rfl, rfl⟩

/-- C7: `updateStatusAndNotes` rewrites the stored rows pointwise by the
change list; every row keeps its id, specialist, activity, unit,
scheduled_date, created_at and created_by; rows no change targets are left
exactly as they were; and every targeted row gets `updated_at = now` and
`updated_by`, `status`, `notes` from a change addressed to it. -/
theorem updateStatusNotesFrame (changes : List StatusChange) (now : String) (db : DB) :
    (update_records_status_and_notes changes now db).rows
        = db.rows.map (applyAll changes now) ∧
    (update_records_status_and_notes changes now db).audit = db.audit ∧
    (∀ r : Row,
      (applyAll changes now r).id = r.id ∧
      (applyAll changes now r).specialist = r.specialist ∧
      (applyAll changes now r).activity = r.activity ∧
      (applyAll changes now r).unit = r.unit ∧
      (applyAll changes now r).scheduled_date = r.scheduled_date ∧
      (applyAll changes now r).created_at = r.created_at ∧
      (applyAll changes now r).created_by = r.created_by) ∧
    (∀ r : Row, (∀ ch ∈ changes, ch.id ≠ r.id) → applyAll changes now r = r) ∧
    (∀ r : Row, (∃ ch ∈ changes, ch.id = r.id) →
      (applyAll changes now r).updated_at = some now ∧
      ∃ ch ∈ changes, ch.id = r.id ∧
        (applyAll changes now r).updated_by = some (optField ch.actor "—") ∧
        (applyAll changes now r).status = optField ch.status "" ∧
        (applyAll changes now r).notes = optField ch.notes "") := by
  refine ⟨?_, rfl, fun r => applyAll_frame now changes r,
    fun r => applyAll_untouched now changes r,
    fun r => applyAll_touched now changes r⟩
  simp only [update_records_status_and_notes]
  exact foldl_update_eq_map_applyAll now changes db.rows

/-- C10: querying with the empty-string specialist filter is the same
function of the store as querying with no filter at all: the Python code
only appends the `AND specialist = ?` condition under `if specialist:`,
which is falsy for the empty string. -/
theorem emptyFilterEqualsNoFilter (date_from date_to : Date) (db : DB) :
    get_month_records date_from date_to (some "") db
      = get_month_records date_from date_to none db := by
  simp [get_month_records, matchesSpecialist]

/-- C8: whenever the range query returns zero rows, the export produces the
single placeholder cell report, not an empty grid. -/
theorem exportNoDataPlaceholder (month_first month_last : Date)
    (specialist : Option String) (db : DB)
    (h : get_month_records month_first month_last specialist db = []) :
    export_month_matrix_xlsx_bytes month_first month_last specialist db
      = Report.noData "Sin datos para el rango seleccionado" := by
  simp [export_month_matrix_xlsx_bytes, h]

theorem pyOrStr_ne_empty (s d : String) (hd : d ≠ "") : pyOrStr s d ≠ "" := by
  unfold pyOrStr
  split
  · exact hd
  · assumption

/-- C9: through the admin tab (the program's only reschedule call site), a
blank reason is replaced by the placeholder token and a blank actor by the
`ADMIN` placeholder before `admin_update_scheduled_date` runs, so any audit
entry the call records carries a nonempty actor and a nonempty reason. -/
theorem adminTabActorReasonDefaults (rid : Nat) (d : Date)
    (actor_name motivo now : String) (db : DB) :
    ((tab_admin_update_date rid d actor_name motivo now db).1 = false ∧
     (tab_admin_update_date rid d actor_name motivo now db).2 = db) ∨
    (∃ e, (tab_admin_update_date rid d actor_name motivo now db).2.audit
        = db.audit ++ [e] ∧
      e.actor = pyOrStr actor_name.trim "ADMIN" ∧
      e.reason = pyOrStr motivo.trim "—" ∧
      e.actor ≠ "" ∧ e.reason ≠ "") := by
  unfold tab_admin_update_date
  cases hfind : db.rows.find? (fun r => r.id == rid) with
  | none =>
      left
      constructor <;> simp [admin_update_scheduled_date, hfind]
  | some row =>
      right
      refine ⟨⟨db.nextAuditId, "UPDATE_DATE", rid, some row.scheduled_date,
        some d, pyOrStr actor_name.trim "ADMIN", pyOrStr motivo.trim "—", now⟩,
        by simp [admin_update_scheduled_date, hfind], rfl, rfl,
        pyOrStr_ne_empty _ _ (by decide), pyOrStr_ne_empty _ _ (by decide)⟩

theorem insertAll_error (now : String) :
    ∀ (records : List NewRecord) (db : DB),
      (∃ r ∈ records, r.specialist = none ∨ r.activity = none ∨ r.unit = none) →
      insertAll now db records = Except.error StorageError.notNullViolation := by
  intro records
  induction records with
  | nil =>
      intro db h
      simp at h
  | cons r rs ih =>
      intro db hex
      by_cases hr : r.specialist = none ∨ r.activity = none ∨ r.unit = none
      · simp [insertAll, insertOne, hr]
      · have hrs : ∃ x ∈ rs, x.specialist = none ∨ x.activity = none ∨ x.unit = none := by
          rcases hex with ⟨x, hx, hbad⟩
          rcases List.mem_cons.mp hx with h1 | h2
          · exact absurd (h1 ▸ hbad) hr
          · exact ⟨x, h2, hbad⟩
        simp only [insertAll, insertOne, if_neg hr]
        exact ih _ hrs

theorem insertAll_ok (now : String) :
    ∀ (records : List NewRecord) (db : DB),
      (∀ r ∈ records, r.specialist ≠ none ∧ r.activity ≠ none ∧ r.unit ≠ none) →
      insertAll now db records =
        Except.ok { db with rows := db.rows ++ batchRows db.nextId now records,
                            nextId := db.nextId + records.length } := by
  intro records
  induction records with
  | nil =>
      intro db _
      cases db
      simp [insertAll, batchRows]
  | cons r rs ih =>
      intro db h
      have hr := h r (List.mem_cons_self _ _)
      have hcond : ¬(r.specialist = none ∨ r.activity = none ∨ r.unit = none) := by
        tauto
      simp only [insertAll, insertOne, if_neg hcond]
      rw [ih _ (fun x hx => h x (List.mem_cons_of_mem _ hx))]
      cases db
      simp only [batchRows, List.length_cons, Except.ok.injEq, DB.mk.injEq,
        List.append_assoc, List.singleton_append, true_and, and_true]
      omega

theorem batchRows_ids (now : String) :
    ∀ (records : List NewRecord) (n : Nat),
      (batchRows n now records).map (fun r => r.id) = List.range' n records.length := by
  intro records
  induction records with
  | nil => intro n; simp [batchRows]
  | cons r rs ih =>
      intro n
      simp [batchRows, rowOfRecord, List.range'_succ, ih]

theorem batchRows_mem (now : String) :
    ∀ (records : List NewRecord) (n : Nat) (row : Row),
      row ∈ batchRows n now records →
      row.created_at = now ∧
      ∃ rec ∈ records, row.specialist = rec.specialist.getD "" ∧
        row.activity = rec.activity.getD "" ∧ row.unit = rec.unit.getD "" ∧
        row.scheduled_date = rec.scheduled_date ∧
        row.status = optField rec.status "" ∧ row.notes = optField rec.notes "" := by
  intro records
  induction records with
  | nil =>
      intro n row h
      simp [batchRows] at h
  | cons r rs ih =>
      intro n row h
      rcases List.mem_cons.mp h with h1 | h2
      · subst h1
        exact ⟨rfl, r, List.mem_cons_self _ _, rfl, rfl, rfl, rfl, rfl, rfl⟩
      · rcases ih (n + 1) row h2 with ⟨hca, rec, hrec, hrest⟩
        exact ⟨hca, rec, List.mem_cons_of_mem _ hrec, hrest⟩

/-- C6 (amended): `createBatch` is a no-op on the empty batch; a batch
containing a record whose specialist, activity or unit is missing/null is
rejected in full, no row of it is ever visible; a batch whose records all
carry the three fields (empty strings included) is inserted whole, in one
transaction, with consecutive fresh ids from the store counter, with
`created_at` set to the call time, and with status and notes defaulting to
the empty string. -/
theorem createBatchSpecAmended (records : List NewRecord) (now : String) (db : DB) :
    (records = [] → add_scheduled_records records now db = Except.ok db) ∧
    ((∃ r ∈ records, r.specialist = none ∨ r.activity = none ∨ r.unit = none) →
      add_scheduled_records records now db
        = Except.error StorageError.notNullViolation) ∧
    ((∀ r ∈ records, r.specialist ≠ none ∧ r.activity ≠ none ∧ r.unit ≠ none) →
      add_scheduled_records records now db =
        Except.ok { db with rows := db.rows ++ batchRows db.nextId now records,
                            nextId := db.nextId + records.length }) ∧
    (batchRows db.nextId now records).map (fun r => r.id)
        = List.range' db.nextId records.length ∧
    (∀ row ∈ batchRows db.nextId now records, row.created_at = now ∧
      ∃ rec ∈ records, row.status = optField rec.status ""
        ∧ row.notes = optField rec.notes "") := by
  refine ⟨?_, ?_, ?_, batchRows_ids now records db.nextId, ?_⟩
  · intro h
    subst h
    simp [add_scheduled_records]
  · intro hex
    have hne : records ≠ [] := by
      rcases hex with ⟨x, hx, _⟩
      intro h
      subst h
      simp at hx
    rw [add_scheduled_records, if_neg (by simpa using hne)]
    exact insertAll_error now records db hex
  · intro hall
    rcases records with _ | ⟨r, rs⟩
    · cases db
      simp [add_scheduled_records, batchRows]
    · rw [add_scheduled_records, if_neg (by simp)]
      exact insertAll_ok now _ db hall
  · intro row hrow
    rcases batchRows_mem now records db.nextId row hrow with ⟨hca, rec, hrec, h1⟩
    exact ⟨hca, rec, hrec, h1.2.2.2.2.1, h1.2.2.2.2.2⟩

/-- C6 counterexample: a batch record whose specialist is present but equal
to the empty string is accepted, inserted, and visible in the store, while
the claim demands a validation failure with no row written.  Only the `NOT
NULL` constraint exists; no non-empty check does. -/
theorem createBatchEmptyFieldAccepted :
    add_scheduled_records
        [⟨some "", some "Informe", some "Documento", ⟨2024, 3, 1⟩, none, none, none⟩]
        "t0" emptyDB
      = Except.ok ⟨[⟨1, "", "Informe", "Documento", ⟨2024, 3, 1⟩, "", "", "t0", "—",
          none, none⟩], 2, [], 1⟩ := by
  rfl

/-- C5 (code bug): running the spec scenario — three rows for "Ana" on
2024-03-01..03 inserted into a fresh store, id 2 then marked "✓", March
2024 exported — the pivot does hold "✓" for day 2, but the emitted grid
row is blank in every one of its 31 day cells (so day 2 is "" and not "✓"):
`itertuples` renames the integer day columns of the pivoted frame to
positional names, so `getattr(row, str(day), "")` always returns the
default. -/
theorem exportDayCellsBlankAna :
    add_scheduled_records anaBatch "t0" emptyDB = Except.ok anaDB1 ∧
    update_records_status_and_notes [⟨2, some "✓", some "", some "Ana"⟩] "t1" anaDB1
      = anaDB2 ∧
    pivotValue (get_month_records ⟨2024, 3, 1⟩ ⟨2024, 3, 31⟩ none anaDB2)
      ⟨"Ana", "Informe", "Documento"⟩ 2 = "✓" ∧
    export_month_matrix_xlsx_bytes ⟨2024, 3, 1⟩ ⟨2024, 3, 31⟩ none anaDB2 =
      Report.grid ⟨"Matriz mensual: 2024-03",
        ["Especialista", "Actividad", "Unidad de medida"],
        List.range' 1 31,
        [["Ana", "Informe", "Documento"] ++ List.replicate 31 ""]⟩ ∧
    (["Ana", "Informe", "Documento"] ++ List.replicate 31 "").getD 4 "?" = "" := by
  refine ⟨rfl, rfl, rfl, ?_, rfl⟩
  rfl

/-- Witness for `adminRescheduleSpec`: in the one-row sample store, record 1
(scheduled 2024-03-05) rescheduled to 2024-03-10 inside March 2024. -/
theorem adminRescheduleSpecWitness :
    (wDB.rows.find? (fun r => r.id == 1) = some wRow ∧
     dateLeB ⟨2024, 3, 1⟩ ⟨2024, 3, 10⟩ = true ∧
     dateLeB ⟨2024, 3, 10⟩ ⟨2024, 3, 31⟩ = true) ∧
    (admin_update_scheduled_date 1 ⟨2024, 3, 10⟩ "admin1" "client request" "t1" wDB).1
      = true :=
  ⟨⟨rfl, rfl, rfl⟩,
   (adminRescheduleSpec wDB 1 ⟨2024, 3, 10⟩ ⟨2024, 3, 1⟩ ⟨2024, 3, 31⟩
     "admin1" "client request" "t1" wRow rfl rfl rfl).1⟩

/-- Witness for `adminDeleteSpec`: deleting record 1 of the sample store. -/
theorem adminDeleteSpecWitness :
    wDB.rows.find? (fun r => r.id == 1) = some wRow ∧
    (admin_delete_record 1 "admin1" "cleanup" "t1" wDB).1 = true :=
  ⟨rfl, (adminDeleteSpec wDB 1 "admin1" "cleanup" "t1" wRow rfl).1⟩

/-- Witness for `adminOpsNonexistentNoop`: id 99 exists in no row of the
sample store; both operations return `false` and change nothing. -/
theorem adminOpsNonexistentNoopWitness :
    wDB.rows.all (fun r => !(r.id == 99)) = true ∧
    admin_update_scheduled_date 99 ⟨2024, 3, 10⟩ "a" "r" "t1" wDB = (false, wDB) ∧
    admin_delete_record 99 "a" "r" "t1" wDB = (false, wDB) := by
  refine ⟨rfl, ?_, ?_⟩
  · exact (adminOpsNonexistentNoop wDB 99 ⟨2024, 3, 10⟩ "a" "r" "t1" (by decide)).1
  · exact (adminOpsNonexistentNoop wDB 99 ⟨2024, 3, 10⟩ "a" "r" "t1" (by decide)).2

/-- Witness for `createBatchSpecAmended`: a well-formed singleton batch
into a fresh store. -/
theorem createBatchSpecAmendedWitness :
    [wRec].all (fun r => !(r.specialist == none) && !(r.activity == none)
        && !(r.unit == none)) = true ∧
    add_scheduled_records [wRec] "t0" emptyDB =
      Except.ok { emptyDB with
        rows := emptyDB.rows ++ batchRows emptyDB.nextId "t0" [wRec],
        nextId := emptyDB.nextId + [wRec].length } := by
  refine ⟨rfl, ?_⟩
  exact (createBatchSpecAmended [wRec] "t0" emptyDB).2.2.1 (by decide)

/-- Witness for `updateStatusNotesFrame`: one change against the sample
store; the touched row keeps its scheduled date and gets the new
`updated_at`. -/
theorem updateStatusNotesFrameWitness :
    (update_records_status_and_notes [⟨1, some "✓", some "n", some "Ana"⟩] "t1" wDB).rows
      = wDB.rows.map (applyAll [⟨1, some "✓", some "n", some "Ana"⟩] "t1") ∧
    (applyAll [⟨1, some "✓", some "n", some "Ana"⟩] "t1" wRow).scheduled_date
      = wRow.scheduled_date ∧
    (applyAll [⟨1, some "✓", some "n", some "Ana"⟩] "t1" wRow).updated_at = some "t1" :=
  ⟨(updateStatusNotesFrame [⟨1, some "✓", some "n", some "Ana"⟩] "t1" wDB).1,
   ((updateStatusNotesFrame [⟨1, some "✓", some "n", some "Ana"⟩] "t1" wDB).2.2.1 wRow).2.2.2.2.1,
   (((updateStatusNotesFrame [⟨1, some "✓", some "n", some "Ana"⟩] "t1" wDB).2.2.2.2 wRow)
     (by decide)).1⟩

/-- Witness for `exportNoDataPlaceholder`: exporting March 2024 from the
fresh empty store. -/
theorem exportNoDataPlaceholderWitness :
    get_month_records ⟨2024, 3, 1⟩ ⟨2024, 3, 31⟩ none emptyDB = [] ∧
    export_month_matrix_xlsx_bytes ⟨2024, 3, 1⟩ ⟨2024, 3, 31⟩ none emptyDB
      = Report.noData "Sin datos para el rango seleccionado" :=
  ⟨rfl, exportNoDataPlaceholder ⟨2024, 3, 1⟩ ⟨2024, 3, 31⟩ none emptyDB rfl⟩
